import Mathlib

/-!
Shallow embedding of the task-queue core of `src/scripts/queue-manager.py`:
priority levels, tasks, the SQLite-backed durable store (modelled as lists of
rows, each `with`-connection block being one atomic transaction), the in-memory
heap-based working queue, the aging engine, the lifecycle operations of
`QueueManager`, and the batch grouper.

Modelling conventions:
- ISO-8601 timestamp strings are modelled as integer seconds (`Nat`); their
  lexicographic order coincides with numeric order for a fixed format.
- Python floats (`datetime.timestamp()`, hour arithmetic) are modelled exactly
  over `Int`; `age_hours >= H` becomes `now - created >= H * 3600` seconds.
- The SQLite `tasks` table is a list of rows in insertion order;
  `INSERT OR REPLACE` replaces the row with the matching primary key in place.
- `ORDER BY` is modelled as a stable insertion sort on exactly the columns the
  query names, ties keeping row order, matching SQLite's unspecified tie order
  deterministically.
- `heapq` is modelled as a bag of entries with minimum extraction: `heappush`
  adds an entry, `heappop` removes a minimal entry under the task's
  `__lt__` ordering (lexicographic on `(sort_priority, sort_timestamp)`).
-/

set_option maxHeartbeats 1000000

namespace QueueSpec

/-- `Priority(IntEnum)`: lower value = higher priority. -/
inductive Priority where
  | P0_CRITICAL
  | P1_HIGH
  | P2_MEDIUM
  | P3_LOW
  deriving DecidableEq, Repr

/-- `int(priority)`: the numeric value of the enum member. -/
def Priority.toInt : Priority → Int
  | .P0_CRITICAL => 0
  | .P1_HIGH => 1
  | .P2_MEDIUM => 2
  | .P3_LOW => 3

/-- `priority.name`: the Python enum member name. -/
def Priority.pname : Priority → String
  | .P0_CRITICAL => "P0_CRITICAL"
  | .P1_HIGH => "P1_HIGH"
  | .P2_MEDIUM => "P2_MEDIUM"
  | .P3_LOW => "P3_LOW"

/-- Python `str.upper()` (ASCII range, as all priority tokens are ASCII). -/
def pyUpper (s : String) : String :=
  ⟨s.data.map Char.toUpper⟩

/-- Python `str.strip()`: drop whitespace from both ends. -/
def pyStrip (s : String) : String :=
  ⟨((s.data.dropWhile Char.isWhitespace).reverse.dropWhile
      Char.isWhitespace).reverse⟩

/-- `Priority.from_string`: uppercases and strips the input, then looks it up
in the literal alias table; an unknown token raises, modelled as `none`. -/
def Priority.fromString (s : String) : Option Priority :=
  let u := pyStrip (pyUpper s)
  if u = "P0" ∨ u = "CRITICAL" ∨ u = "P0-CRITICAL" then some .P0_CRITICAL
  else if u = "P1" ∨ u = "HIGH" ∨ u = "P1-HIGH" then some .P1_HIGH
  else if u = "P2" ∨ u = "MEDIUM" ∨ u = "P2-MEDIUM" then some .P2_MEDIUM
  else if u = "P3" ∨ u = "LOW" ∨ u = "P3-LOW" then some .P3_LOW
  else none

/-- The `Task` dataclass. `sort_priority` and `sort_timestamp` are the only
fields with `compare=True`; `__lt__` is lexicographic on them. -/
structure Task where
  sort_priority : Int
  sort_timestamp : Int
  task_id : String
  priority : Priority
  description : String
  category : String
  status : String
  assigned_agent : Option String
  verifier_agent : Option String
  created_at : Nat
  updated_at : Nat
  started_at : Option Nat
  completed_at : Option Nat
  original_priority : Option Int
  boost_count : Nat
  batch_id : Option String
  metadata : List (String × String)
  retry_count : Nat
  max_retries : Nat
  dependencies : List String
  tags : List String
  deriving DecidableEq, Repr

/-- `Task.create`: factory; `sort_priority = int(priority)`,
`sort_timestamp = -created_at.timestamp()`, `original_priority = int(priority)`,
status defaults to pending (`__post_init__` keeps these values unchanged). -/
def Task.create (task_id : String) (description : String) (priority : Priority)
    (category : String) (now : Nat) : Task :=
  { sort_priority := priority.toInt
    sort_timestamp := -(now : Int)
    task_id := task_id
    priority := priority
    description := description
    category := category
    status := "pending"
    assigned_agent := none
    verifier_agent := none
    created_at := now
    updated_at := now
    started_at := none
    completed_at := none
    original_priority := some priority.toInt
    boost_count := 0
    batch_id := none
    metadata := []
    retry_count := 0
    max_retries := 3
    dependencies := []
    tags := [] }

/-- A row of the append-only `task_history` table. -/
structure HistEvent where
  task_id : String
  action : String
  old_value : Option String
  new_value : Option String
  timestamp : Nat
  deriving DecidableEq, Repr

/-- A row of the `batches` table (`save_batch` stores this summary). -/
structure BatchRow where
  batch_id : String
  category : String
  priority : Priority
  created_at : Nat
  status : String
  deriving DecidableEq, Repr

/-- The durable SQLite database: `tasks`, `task_history` and `batches` rows,
each list in insertion order. -/
structure DB where
  tasks : List Task
  history : List HistEvent
  batches : List BatchRow
  deriving DecidableEq, Repr

/-- One committed transaction (one `_get_connection` block that writes). -/
inductive Txn where
  | save (t : Task)
  | hist (e : HistEvent)
  | batchRow (b : BatchRow)
  deriving DecidableEq, Repr

/-- `INSERT OR REPLACE INTO tasks`: replace the row with the same primary key,
or append a fresh row. -/
def upsertTask (t : Task) : List Task → List Task
  | [] => [t]
  | u :: us => if u.task_id = t.task_id then t :: us else u :: upsertTask t us

/-- Commit one transaction to the durable state. -/
def DB.applyTxn (db : DB) : Txn → DB
  | .save t => { db with tasks := upsertTask t db.tasks }
  | .hist e => { db with history := db.history ++ [e] }
  | .batchRow b => { db with batches := db.batches ++ [b] }

/-- Commit a sequence of transactions in order. -/
def DB.applyTxns (db : DB) (l : List Txn) : DB :=
  l.foldl DB.applyTxn db

/-- `QueueDatabase.save_task`: a single `INSERT OR REPLACE` transaction. -/
def DB.saveTask (db : DB) (t : Task) : DB :=
  db.applyTxn (.save t)

/-- `QueueDatabase.record_history`: a single append transaction. -/
def DB.recordHistory (db : DB) (id action : String)
    (ov nv : Option String) (now : Nat) : DB :=
  db.applyTxn (.hist ⟨id, action, ov, nv, now⟩)

/-- `QueueDatabase.save_batch`: a single `INSERT OR REPLACE` into `batches`
(batch ids are fresh in every run modelled here, so a plain append). -/
def DB.saveBatch (db : DB) (b : BatchRow) : DB :=
  db.applyTxn (.batchRow b)

/-- `QueueDatabase.get_task`: `SELECT * FROM tasks WHERE task_id = ?`, first
matching row or `None`. -/
def DB.getTask (db : DB) (id : String) : Option Task :=
  db.tasks.find? (fun t => t.task_id == id)

/-- Stable insertion of `a` after every element not strictly greater
(`lt a b` means `a` sorts strictly before `b`). -/
def insertLt (lt : α → α → Bool) (a : α) : List α → List α
  | [] => [a]
  | b :: bs => if lt a b then a :: b :: bs else b :: insertLt lt a bs

/-- Stable sort: inserting each row in turn keeps the relative order of rows
the comparator considers equal. Models SQLite `ORDER BY` over the row list. -/
def sortLt (lt : α → α → Bool) (l : List α) : List α :=
  l.foldl (fun acc a => insertLt lt a acc) []

/-- Strict comparison for `ORDER BY priority ASC, created_at ASC`. -/
def ltPriorityCreated (a b : Task) : Bool :=
  a.priority.toInt < b.priority.toInt ∨
    (a.priority.toInt = b.priority.toInt ∧ a.created_at < b.created_at)

/-- Strict comparison for `ORDER BY priority ASC` (no tie-break column). -/
def ltPriorityOnly (a b : Task) : Bool :=
  a.priority.toInt < b.priority.toInt

/-- `QueueDatabase.get_pending_tasks`: pending rows ordered by
`priority ASC, created_at ASC`. -/
def DB.getPendingTasks (db : DB) : List Task :=
  sortLt ltPriorityCreated (db.tasks.filter (fun t => t.status == "pending"))

/-- `QueueDatabase.get_tasks_by_status`: rows with the given status ordered by
`priority ASC, created_at ASC`. -/
def DB.getTasksByStatus (db : DB) (status : String) : List Task :=
  sortLt ltPriorityCreated (db.tasks.filter (fun t => t.status == status))

/-- `QueueDatabase.get_tasks_by_category`: rows with the given category,
optionally filtered by status, ordered by `priority ASC` only — the query
names no second sort column. -/
def DB.getTasksByCategory (db : DB) (category : String)
    (status : Option String) : List Task :=
  match status with
  | some s => sortLt ltPriorityOnly
      (db.tasks.filter (fun t => t.category == category && t.status == s))
  | none => sortLt ltPriorityOnly
      (db.tasks.filter (fun t => t.category == category))

/-- `Task.__lt__` from `@dataclass(order=True)`: lexicographic on the two
`compare=True` fields `(sort_priority, sort_timestamp)`. -/
def taskLt (a b : Task) : Bool :=
  a.sort_priority < b.sort_priority ∨
    (a.sort_priority = b.sort_priority ∧ a.sort_timestamp < b.sort_timestamp)

/-- Extract a minimal entry (under `taskLt`) from the heap bag, as
`heapq.heappop` does; the first minimal entry is chosen, the remainder keeps
its order. -/
def extractMin : List Task → Option (Task × List Task)
  | [] => none
  | t :: ts =>
    match extractMin ts with
    | none => some (t, [])
    | some (m, rest) => if taskLt m t then some (m, t :: rest) else some (t, ts)

/-- The in-memory working-queue state of a `QueueManager`: durable database,
`PriorityQueue._heap` (as a bag) and `PriorityQueue._task_map`. -/
structure QState where
  db : DB
  heap : List Task
  tmap : List (String × Task)
  deriving DecidableEq, Repr

/-- `task_id in self._task_map`. -/
def mapHas (m : List (String × Task)) (id : String) : Bool :=
  m.any (fun p => p.1 == id)

/-- `self._task_map[task_id] = task`: replace the entry or add a fresh one. -/
def mapSet (id : String) (t : Task) : List (String × Task) → List (String × Task)
  | [] => [(id, t)]
  | p :: ps => if p.1 = id then (id, t) :: ps else p :: mapSet id t ps

/-- `del self._task_map[task_id]`. -/
def mapDel (id : String) (m : List (String × Task)) : List (String × Task) :=
  m.filter (fun p => !(p.1 == id))

/-- `PriorityQueue._load_from_db`: rebuild map and heap from the pending rows. -/
def QState.loadFromDb (db : DB) : QState :=
  let pending := db.getPendingTasks
  { db := db
    heap := pending
    tmap := pending.map (fun t => (t.task_id, t)) }

/-- `PriorityQueue.add`: force status pending, stamp `updated_at`, save, record
the `created` history event, then index and push. -/
def QState.add (st : QState) (task : Task) (now : Nat) : QState :=
  let t := { task with status := "pending", updated_at := now }
  let db := (st.db.saveTask t).recordHistory t.task_id "created" none
    (some t.priority.pname) now
  { db := db
    heap := t :: st.heap
    tmap := mapSet t.task_id t st.tmap }

/-- The loop of `PriorityQueue.peek`: look at the heap minimum; a live entry
(indexed and still pending in the store) is returned re-read from the store;
otherwise the entry is discarded and the loop continues. Fuel is the heap
size, which the loop can never exceed. -/
def peekLoop (db : DB) (tmap : List (String × Task)) :
    Nat → List Task → Option Task
  | 0, _ => none
  | fuel + 1, heap =>
    match extractMin heap with
    | none => none
    | some (t, rest) =>
      if mapHas tmap t.task_id then
        match db.getTask t.task_id with
        | some cur =>
          if cur.status == "pending" then some cur
          else peekLoop db tmap fuel rest
        | none => peekLoop db tmap fuel rest
      else peekLoop db tmap fuel rest

/-- `PriorityQueue.peek`. -/
def QState.peek (st : QState) : Option Task :=
  peekLoop st.db st.tmap st.heap.length st.heap

/-- The loop of `PriorityQueue.pop`: pop heap minima until one is live, delete
it from the index and return the store's copy; stale entries are dropped. -/
def popLoop (db : DB) : Nat → List Task → List (String × Task) →
    Option Task × List Task × List (String × Task)
  | 0, heap, tmap => (none, heap, tmap)
  | fuel + 1, heap, tmap =>
    match extractMin heap with
    | none => (none, heap, tmap)
    | some (t, rest) =>
      if mapHas tmap t.task_id then
        match db.getTask t.task_id with
        | some cur =>
          if cur.status == "pending" then
            (some cur, rest, mapDel t.task_id tmap)
          else popLoop db fuel rest tmap
        | none => popLoop db fuel rest tmap
      else popLoop db fuel rest tmap

/-- `PriorityQueue.pop`: the database itself is only read, never written. -/
def QState.pop (st : QState) : Option Task × QState :=
  let r := popLoop st.db st.heap.length st.heap st.tmap
  (r.1, { st with heap := r.2.1, tmap := r.2.2 })

/-- `PriorityQueue.update_priority`: re-read the task; set priority and
`sort_priority`, stamp `updated_at`; on a boost also increment `boost_count`;
record the history event, save, and when the id is indexed rebuild the heap
from the map's values. -/
def QState.updatePriority (st : QState) (id : String) (newPriority : Priority)
    (isBoost : Bool) (now : Nat) : Bool × QState :=
  match st.db.getTask id with
  | none => (false, st)
  | some task =>
    let oldPriority := task.priority
    let t1 := { task with priority := newPriority,
                          sort_priority := newPriority.toInt,
                          updated_at := now }
    let t2 := if isBoost then { t1 with boost_count := t1.boost_count + 1 } else t1
    let action := if isBoost then "priority_boost" else "priority_change"
    let db := ((st.db.recordHistory id action (some oldPriority.pname)
      (some newPriority.pname) now).saveTask t2)
    if mapHas st.tmap id then
      let tmap := mapSet id t2 st.tmap
      (true, { db := db, tmap := tmap, heap := tmap.map (·.2) })
    else
      (true, { st with db := db })

/-- `AGE_BOOST_THRESHOLDS` applied at the task's current tier:
the promotion target when `age_hours >= threshold`, in seconds
(`ageSeconds >= hours * 3600`); the top tier never promotes. -/
def boostTarget (p : Priority) (ageSeconds : Int) : Option Priority :=
  match p with
  | .P3_LOW => if ageSeconds ≥ 4 * 3600 then some .P2_MEDIUM else none
  | .P2_MEDIUM => if ageSeconds ≥ 8 * 3600 then some .P1_HIGH else none
  | .P1_HIGH => if ageSeconds ≥ 24 * 3600 then some .P0_CRITICAL else none
  | .P0_CRITICAL => none

/-- One iteration of the `apply_age_boosts` loop body for snapshot task `t`.
The update and the count run under `if new_priority:`, which tests Python
truthiness of the `Optional[Priority]` value: false when no target was
computed (`None`), and also false when the target is `Priority.P0_CRITICAL`,
whose `IntEnum` integer value 0 makes the member falsy — so a computed
P1->P0 promotion is silently dropped and not counted. -/
def boostStep (now : Nat) (acc : QState × Nat) (t : Task) : QState × Nat :=
  match boostTarget t.priority ((now : Int) - (t.created_at : Int)) with
  | none => acc
  | some np =>
    if np.toInt = 0 then acc
    else ((acc.1.updatePriority t.task_id np true now).2, acc.2 + 1)

/-- `PriorityQueue.apply_age_boosts`: snapshot the pending rows once, promote
each task whose age reaches its tier's threshold by one tier via
`update_priority(..., is_boost=True)`, and count the promotions. -/
def QState.applyAgeBoosts (st : QState) (now : Nat) : QState × Nat :=
  (st.db.getPendingTasks).foldl (boostStep now) (st, 0)

/-- The write transactions `QueueManager.start_task` commits, in order: first
`save_task` on its own connection, then `record_history` on another. A
nonexistent task commits nothing. -/
def startTaskSteps (db : DB) (id : String) (agent : Option String)
    (now : Nat) : List Txn :=
  match db.getTask id with
  | none => []
  | some task =>
    let t1 := { task with status := "running",
                          started_at := some now,
                          updated_at := now }
    let t2 := match agent with
      | some a => { t1 with assigned_agent := some a }
      | none => t1
    [.save t2, .hist ⟨id, "started", some "pending", some "running", now⟩]

/-- `QueueManager.start_task`: returns the updated task, or `None` when the
id is unknown; the durable effect is the committed transaction sequence.
The current status is never checked. -/
def startTask (st : QState) (id : String) (agent : Option String)
    (now : Nat) : Option Task × QState :=
  match st.db.getTask id with
  | none => (none, st)
  | some task =>
    let t1 := { task with status := "running",
                          started_at := some now,
                          updated_at := now }
    let t2 := match agent with
      | some a => { t1 with assigned_agent := some a }
      | none => t1
    (some t2, { st with db := st.db.applyTxns (startTaskSteps st.db id agent now) })

/-- `QueueManager.complete_task`: sets completed or failed, stamps
`completed_at`, saves and records history; `None` when the id is unknown.
The current status is never checked. -/
def completeTask (st : QState) (id : String) (success : Bool)
    (now : Nat) : Option Task × QState :=
  match st.db.getTask id with
  | none => (none, st)
  | some task =>
    let newStatus := if success then "completed" else "failed"
    let t1 := { task with status := newStatus,
                          completed_at := some now,
                          updated_at := now }
    let action := if success then "completed" else "failed"
    let db := (st.db.saveTask t1).recordHistory id action (some "running")
      (some newStatus) now
    (some t1, { st with db := db })

/-- `QueueManager.retry_task`: `None` with no effect when the id is unknown or
`retry_count >= max_retries`; otherwise increments `retry_count`, resets to
pending, clears `started_at`/`completed_at`, saves, records history, and
re-enters the working queue (map entry plus heap push). -/
def retryTask (st : QState) (id : String) (now : Nat) : Option Task × QState :=
  match st.db.getTask id with
  | none => (none, st)
  | some task =>
    if task.retry_count ≥ task.max_retries then (none, st)
    else
      let t1 := { task with retry_count := task.retry_count + 1,
                            status := "pending",
                            started_at := none,
                            completed_at := none,
                            updated_at := now }
      let db := (st.db.saveTask t1).recordHistory id "retry" (some "failed")
        (some "pending") now
      (some t1, { db := db,
                  heap := t1 :: st.heap,
                  tmap := mapSet id t1 st.tmap })

/-- `QueueManager.get_next_task`: run a full `apply_age_boosts` pass, then
`peek`; returns the peeked task together with the state the pass left. -/
def getNextTask (st : QState) (now : Nat) : Option Task × QState :=
  let st1 := (st.applyAgeBoosts now).1
  (st1.peek, st1)

/-- The dictionary `Task.to_dict` produces (one field per dict key). -/
structure TaskDict where
  task_id : String
  priority : String
  priority_value : Int
  description : String
  category : String
  status : String
  assigned_agent : Option String
  verifier_agent : Option String
  created_at : Nat
  updated_at : Nat
  started_at : Option Nat
  completed_at : Option Nat
  original_priority : Option Int
  boost_count : Nat
  batch_id : Option String
  metadata : List (String × String)
  retry_count : Nat
  max_retries : Nat
  dependencies : List String
  tags : List String
  deriving DecidableEq, Repr

/-- `Task.to_dict`: the priority is serialized as the enum member name
(`self.priority.name`). -/
def Task.toDict (t : Task) : TaskDict :=
  { task_id := t.task_id
    priority := t.priority.pname
    priority_value := t.priority.toInt
    description := t.description
    category := t.category
    status := t.status
    assigned_agent := t.assigned_agent
    verifier_agent := t.verifier_agent
    created_at := t.created_at
    updated_at := t.updated_at
    started_at := t.started_at
    completed_at := t.completed_at
    original_priority := t.original_priority
    boost_count := t.boost_count
    batch_id := t.batch_id
    metadata := t.metadata
    retry_count := t.retry_count
    max_retries := t.max_retries
    dependencies := t.dependencies
    tags := t.tags }

/-- `Task.from_dict`: parses the priority with `Priority.from_string`, whose
failure (a raised `ValueError`) is `none`; otherwise rebuilds the task with
`sort_priority = priority_value` and
`sort_timestamp = -created_at.timestamp()`. -/
def Task.fromDict (d : TaskDict) : Option Task :=
  match Priority.fromString d.priority with
  | none => none
  | some p =>
    some
      { sort_priority := d.priority_value
        sort_timestamp := -(d.created_at : Int)
        task_id := d.task_id
        priority := p
        description := d.description
        category := d.category
        status := d.status
        assigned_agent := d.assigned_agent
        verifier_agent := d.verifier_agent
        created_at := d.created_at
        updated_at := d.updated_at
        started_at := d.started_at
        completed_at := d.completed_at
        original_priority := d.original_priority
        boost_count := d.boost_count
        batch_id := d.batch_id
        metadata := d.metadata
        retry_count := d.retry_count
        max_retries := d.max_retries
        dependencies := d.dependencies
        tags := d.tags }

/-- `BATCH_SIZE_LIMIT`. -/
def batchSizeLimit : Nat := 10

/-- The `Batch` dataclass. -/
structure Batch where
  batch_id : String
  category : String
  priority : Priority
  tasks : List Task
  created_at : Nat
  status : String
  deriving DecidableEq, Repr

/-- `Batch.add_task`: refuse a full batch or a category mismatch; otherwise
tag the task with the batch id and append it. Returns the flag together with
the updated batch and (possibly mutated) task object. -/
def Batch.addTask (b : Batch) (t : Task) : Bool × Batch × Task :=
  if b.tasks.length ≥ batchSizeLimit then (false, b, t)
  else if t.category ≠ b.category then (false, b, t)
  else
    let t1 := { t with batch_id := some b.batch_id }
    (true, { b with tasks := b.tasks ++ [t1] }, t1)

/-- `BatchProcessor._generate_batch_id` after incrementing the counter:
`f"batch_{int(time.time())}_{counter}"`. -/
def genBatchId (timeNow counter : Nat) : String :=
  "batch_" ++ toString timeNow ++ "_" ++ toString counter

/-- The summary row `save_batch` stores for a batch. -/
def Batch.toRow (b : Batch) : BatchRow :=
  ⟨b.batch_id, b.category, b.priority, b.created_at, b.status⟩

/-- The packing loop of `create_batches` for one (priority, category) group:
open a fresh batch when there is none or the current one is full (appending
the finished one to the output), `add_task` the task into the current batch
and save the task. Returns the database, the batch counter, the finished
batches in creation order, and the still-open batch. -/
def packLoop (timeNow : Nat) (p : Priority) (c : String) :
    List Task → DB → Nat → List Batch → Option Batch →
    DB × Nat × List Batch × Option Batch
  | [], db, ctr, done, cur => (db, ctr, done, cur)
  | t :: ts, db, ctr, done, cur =>
    let roll : Nat × List Batch × Batch :=
      match cur with
      | none => (ctr + 1, done, ⟨genBatchId timeNow (ctr + 1), c, p, [], timeNow, "pending"⟩)
      | some b =>
        if b.tasks.length ≥ batchSizeLimit then
          (ctr + 1, done ++ [b], ⟨genBatchId timeNow (ctr + 1), c, p, [], timeNow, "pending"⟩)
        else (ctr, done, b)
    let (ctr1, done1, b0) := roll
    let (_, b1, t1) := b0.addTask t
    packLoop timeNow p c ts (db.saveTask t1) ctr1 done1 (some b1)

/-- One (priority, category) pair of `create_batches`: fetch the pending tasks
of the category, keep those of the priority, pack them, and `save_batch` the
last open batch of the pair (only that one is persisted). -/
def processPair (timeNow : Nat) (acc : DB × Nat × List Batch)
    (p : Priority) (c : String) : DB × Nat × List Batch :=
  let (db, ctr, batches) := acc
  let tasks := (db.getTasksByCategory c (some "pending")).filter
    (fun t => t.priority == p)
  let (db1, ctr1, done, cur) := packLoop timeNow p c tasks db ctr [] none
  match cur with
  | some b => (db1.saveBatch b.toRow, ctr1, batches ++ done ++ [b])
  | none => (db1, ctr1, batches ++ done)

/-- Iteration order of `create_batches`: `for priority in Priority` then the
literal category list. -/
def priorityOrder : List Priority :=
  [.P0_CRITICAL, .P1_HIGH, .P2_MEDIUM, .P3_LOW]

/-- The literal category list in `create_batches`. -/
def categoryOrder : List String :=
  ["security", "backend", "frontend", "testing", "documentation",
   "devops", "refactoring", "bugfix", "feature", "other"]

/-- `BatchProcessor.create_batches`: group pending tasks by (priority,
category) in the fixed iteration order, packing each group into batches of at
most `BATCH_SIZE_LIMIT` tasks. -/
def createBatches (db : DB) (timeNow : Nat) (ctr : Nat) :
    DB × Nat × List Batch :=
  priorityOrder.foldl
    (fun acc p => categoryOrder.foldl (fun a c => processPair timeNow a p c) acc)
    (db, ctr, [])

/-- Specification of the effect one `apply_age_boosts` pass has on a single
pending task: promoted one tier with the boost counter incremented when its
age reaches its current tier's threshold and `if new_priority:` finds the
target truthy; a target of `P0_CRITICAL` (IntEnum value 0, falsy) is dropped
like `None`, leaving the task untouched. -/
def ageBoostStep (now : Nat) (t : Task) : Task :=
  match boostTarget t.priority ((now : Int) - (t.created_at : Int)) with
  | none => t
  | some np =>
    if np.toInt = 0 then t
    else { t with priority := np,
                  sort_priority := np.toInt,
                  updated_at := now,
                  boost_count := t.boost_count + 1 }

/-- The durable states reachable while an operation commits its transaction
sequence: one state per committed count, including none and all. -/
def reachableDuring (db : DB) (steps : List Txn) : List DB :=
  (List.range (steps.length + 1)).map (fun k => db.applyTxns (steps.take k))

/-! ### General lemmas: the stable sort and the row store -/

theorem insertLt_perm (lt : α → α → Bool) (a : α) (l : List α) :
    (insertLt lt a l).Perm (a :: l) := by
  induction l with
  | nil => simp [insertLt]
  | cons b bs ih =>
    simp only [insertLt]
    split
    · exact List.Perm.refl _
    · exact (ih.cons b).trans (List.Perm.swap a b bs)

theorem foldl_insertLt_perm (lt : α → α → Bool) (l : List α) :
    ∀ acc : List α,
      (l.foldl (fun acc a => insertLt lt a acc) acc).Perm (acc ++ l) := by
  induction l with
  | nil => intro acc; simp
  | cons a as ih =>
    intro acc
    simp only [List.foldl_cons]
    exact (ih (insertLt lt a acc)).trans
      (((insertLt_perm lt a acc).append_right as).trans List.perm_middle.symm)

theorem sortLt_perm (lt : α → α → Bool) (l : List α) : (sortLt lt l).Perm l := by
  simpa [sortLt] using foldl_insertLt_perm lt l []

theorem insertLt_pairwise (lt : α → α → Bool)
    (hasym : ∀ a b, lt a b = true → lt b a = false)
    (htrans : ∀ a b c, lt a b = true → lt b c = true → lt a c = true)
    (a : α) (l : List α) (hl : l.Pairwise (fun x y => lt y x = false)) :
    (insertLt lt a l).Pairwise (fun x y => lt y x = false) := by
  induction l with
  | nil => simp [insertLt]
  | cons b bs ih =>
    rcases List.pairwise_cons.mp hl with ⟨hb, hbs⟩
    simp only [insertLt]
    split
    case isTrue hab =>
      refine List.pairwise_cons.mpr ⟨?_, hl⟩
      intro c hc
      rcases List.mem_cons.mp hc with rfl | hc
      · exact hasym a c hab
      · cases hca : lt c a with
        | false => rfl
        | true =>
          have h1 : lt c b = true := htrans c a b hca hab
          have h2 : lt c b = false := hb c hc
          rw [h1] at h2
          exact absurd h2 (by simp)
    case isFalse hab =>
      refine List.pairwise_cons.mpr ⟨?_, ih hbs⟩
      intro c hc
      rcases List.mem_cons.mp ((insertLt_perm lt a bs).mem_iff.mp hc) with rfl | hc
      · simpa using hab
      · exact hb c hc

theorem sortLt_pairwise (lt : α → α → Bool)
    (hasym : ∀ a b, lt a b = true → lt b a = false)
    (htrans : ∀ a b c, lt a b = true → lt b c = true → lt a c = true)
    (l : List α) : (sortLt lt l).Pairwise (fun x y => lt y x = false) := by
  suffices h : ∀ acc : List α, acc.Pairwise (fun x y => lt y x = false) →
      (l.foldl (fun acc a => insertLt lt a acc) acc).Pairwise
        (fun x y => lt y x = false) by
    exact h [] (by simp)
  induction l with
  | nil => intro acc hacc; simpa using hacc
  | cons a as ih =>
    intro acc hacc
    simp only [List.foldl_cons]
    exact ih (insertLt lt a acc) (insertLt_pairwise lt hasym htrans a acc hacc)

theorem upsertTask_find?_eq (t : Task) (x : String) (h : t.task_id = x)
    (l : List Task) :
    (upsertTask t l).find? (fun u => u.task_id == x) = some t := by
  induction l with
  | nil => simp [upsertTask, List.find?_cons_of_pos, h]
  | cons u us ih =>
    simp only [upsertTask]
    split
    case isTrue hu => simp [List.find?_cons_of_pos, h]
    case isFalse hu =>
      have hne : (u.task_id == x) = false := by
        subst h
        simpa using hu
      simp [List.find?_cons_of_neg, hne, ih]

theorem upsertTask_find?_ne (t : Task) (x : String) (h : t.task_id ≠ x)
    (l : List Task) :
    (upsertTask t l).find? (fun u => u.task_id == x) =
      l.find? (fun u => u.task_id == x) := by
  induction l with
  | nil =>
    have h1 : (t.task_id == x) = false := by simpa using h
    simp [upsertTask, List.find?_cons_of_neg, h1]
  | cons u us ih =>
    simp only [upsertTask]
    split
    case isTrue hu =>
      have h1 : (t.task_id == x) = false := by simpa using h
      have h2 : (u.task_id == x) = false := by
        rw [hu]
        exact h1
      simp [List.find?_cons_of_neg, h1, h2]
    case isFalse hu =>
      cases hux : (u.task_id == x) with
      | true => simp [List.find?_cons_of_pos, hux]
      | false => simp [List.find?_cons_of_neg, hux, ih]

theorem getTask_saveTask_eq (db : DB) (t : Task) (x : String)
    (h : t.task_id = x) : (db.saveTask t).getTask x = some t :=
  upsertTask_find?_eq t x h db.tasks

theorem getTask_saveTask_ne (db : DB) (t : Task) (x : String)
    (h : t.task_id ≠ x) : (db.saveTask t).getTask x = db.getTask x :=
  upsertTask_find?_ne t x h db.tasks

theorem getTask_applyTxn_hist (db : DB) (e : HistEvent) (x : String) :
    (db.applyTxn (Txn.hist e)).getTask x = db.getTask x := rfl

theorem getTask_recordHistory (db : DB) (id action : String)
    (ov nv : Option String) (now : Nat) (x : String) :
    (db.recordHistory id action ov nv now).getTask x = db.getTask x := rfl

theorem getTask_some_id (db : DB) (x : String) (t : Task)
    (h : db.getTask x = some t) : t.task_id = x := by
  unfold DB.getTask at h
  have hp := @List.find?_some Task (fun u => u.task_id == x) t db.tasks h
  exact eq_of_beq hp

theorem getTask_some_mem (db : DB) (x : String) (t : Task)
    (h : db.getTask x = some t) : t ∈ db.tasks := by
  unfold DB.getTask at h
  exact List.mem_of_find?_eq_some h

theorem find?_task_id_of_nodup (l : List Task)
    (hnd : (l.map Task.task_id).Nodup) (t : Task) (ht : t ∈ l) :
    l.find? (fun u => u.task_id == t.task_id) = some t := by
  induction l with
  | nil => cases ht
  | cons u us ih =>
    rw [List.map_cons] at hnd
    rcases List.nodup_cons.mp hnd with ⟨hu, hus⟩
    rcases List.mem_cons.mp ht with rfl | hts
    · simp [List.find?_cons_of_pos]
    · have hne : (u.task_id == t.task_id) = false := by
        have : t.task_id ∈ us.map Task.task_id := List.mem_map_of_mem _ hts
        have : u.task_id ≠ t.task_id := fun he => hu (he ▸ this)
        simpa using this
      simp [List.find?_cons_of_neg, hne, ih hus hts]

theorem getTask_of_nodup (db : DB)
    (hnd : (db.tasks.map Task.task_id).Nodup) (t : Task) (ht : t ∈ db.tasks) :
    db.getTask t.task_id = some t :=
  find?_task_id_of_nodup db.tasks hnd t ht

/-! ### Lemmas about `update_priority` and the aging pass -/

theorem updatePriority_getTask_ne (st : QState) (id : String) (np : Priority)
    (bo : Bool) (now : Nat) (x : String) (hx : x ≠ id) :
    ((st.updatePriority id np bo now).2).db.getTask x = st.db.getTask x := by
  unfold QState.updatePriority
  cases hget : st.db.getTask id with
  | none => rfl
  | some task =>
    have hid : task.task_id = id := getTask_some_id st.db id task hget
    have hne : task.task_id ≠ x := by
      rw [hid]
      exact Ne.symm hx
    cases bo with
    | true =>
      simp only []
      split
      · exact getTask_saveTask_ne _ _ _ hne
      · exact getTask_saveTask_ne _ _ _ hne
    | false =>
      simp only []
      split
      · exact getTask_saveTask_ne _ _ _ hne
      · exact getTask_saveTask_ne _ _ _ hne

theorem updatePriority_boost_getTask_self (st : QState) (id : String)
    (np : Priority) (now : Nat) (task : Task)
    (hget : st.db.getTask id = some task) :
    ((st.updatePriority id np true now).2).db.getTask id =
      some { task with priority := np, sort_priority := np.toInt,
                       updated_at := now,
                       boost_count := task.boost_count + 1 } := by
  unfold QState.updatePriority
  rw [hget]
  have hid : task.task_id = id := getTask_some_id st.db id task hget
  simp only []
  split
  · exact getTask_saveTask_eq _ _ _ hid
  · exact getTask_saveTask_eq _ _ _ hid

theorem boostFold_getTask_not_mem (now : Nat) (l : List Task) :
    ∀ (acc : QState × Nat) (x : String), x ∉ l.map Task.task_id →
      ((l.foldl (boostStep now) acc).1).db.getTask x = acc.1.db.getTask x := by
  induction l with
  | nil => intro acc x _; rfl
  | cons t ts ih =>
    intro acc x h
    rw [List.map_cons, List.mem_cons] at h
    push_neg at h
    obtain ⟨hx1, hx2⟩ := h
    simp only [List.foldl_cons]
    rw [ih _ x hx2]
    unfold boostStep
    cases hbt : boostTarget t.priority ((now : Int) - (t.created_at : Int)) with
    | none => rfl
    | some np =>
      simp only []
      by_cases hz : np.toInt = 0
      · rw [if_pos hz]
      · rw [if_neg hz]
        exact updatePriority_getTask_ne acc.1 t.task_id np true now x hx1

theorem boostFold_getTask_mem (now : Nat) (l : List Task) :
    ∀ acc : QState × Nat,
      (l.map Task.task_id).Nodup →
      (∀ u ∈ l, acc.1.db.getTask u.task_id = some u) →
      ∀ t ∈ l, ((l.foldl (boostStep now) acc).1).db.getTask t.task_id =
        some (ageBoostStep now t) := by
  induction l with
  | nil => intro acc _ _ t ht; cases ht
  | cons u us ih =>
    intro acc hnd hget t ht
    rw [List.map_cons] at hnd
    rcases List.nodup_cons.mp hnd with ⟨hu, hus⟩
    simp only [List.foldl_cons]
    rcases List.mem_cons.mp ht with rfl | hts
    · rw [boostFold_getTask_not_mem now us _ _ hu]
      have hget0 : acc.1.db.getTask t.task_id = some t :=
        hget t (List.mem_cons_self t us)
      unfold boostStep ageBoostStep
      cases hbt : boostTarget t.priority ((now : Int) - (t.created_at : Int)) with
      | none => exact hget0
      | some np =>
        simp only []
        by_cases hz : np.toInt = 0
        · rw [if_pos hz, if_pos hz]
          exact hget0
        · rw [if_neg hz, if_neg hz]
          exact updatePriority_boost_getTask_self acc.1 t.task_id np now t hget0
    · apply ih (boostStep now acc u) hus _ t hts
      intro v hv
      have hvne : v.task_id ≠ u.task_id := by
        intro he
        exact hu (he ▸ List.mem_map_of_mem Task.task_id hv)
      have hgv : acc.1.db.getTask v.task_id = some v :=
        hget v (List.mem_cons_of_mem u hv)
      unfold boostStep
      cases hbt : boostTarget u.priority ((now : Int) - (u.created_at : Int)) with
      | none => exact hgv
      | some np =>
        simp only []
        by_cases hz : np.toInt = 0
        · rw [if_pos hz]
          exact hgv
        · rw [if_neg hz]
          rw [updatePriority_getTask_ne acc.1 u.task_id np true now v.task_id hvne]
          exact hgv

theorem getPendingTasks_perm (db : DB) :
    (db.getPendingTasks).Perm
      (db.tasks.filter (fun t => t.status == "pending")) :=
  sortLt_perm _ _

theorem mem_getPendingTasks (db : DB) (t : Task) :
    t ∈ db.getPendingTasks ↔
      t ∈ db.tasks ∧ (t.status == "pending") = true := by
  rw [(getPendingTasks_perm db).mem_iff, List.mem_filter]

theorem getPendingTasks_ids_nodup (db : DB)
    (hnd : (db.tasks.map Task.task_id).Nodup) :
    ((db.getPendingTasks).map Task.task_id).Nodup := by
  have h1 : ((db.tasks.filter (fun t => t.status == "pending")).map
      Task.task_id).Nodup :=
    hnd.sublist ((List.filter_sublist db.tasks).map Task.task_id)
  exact ((getPendingTasks_perm db).map Task.task_id).symm.nodup h1

theorem applyAgeBoosts_getTask (st : QState) (now : Nat)
    (hnd : (st.db.tasks.map Task.task_id).Nodup)
    (t : Task) (ht : t ∈ st.db.getPendingTasks) :
    ((st.applyAgeBoosts now).1).db.getTask t.task_id =
      some (ageBoostStep now t) := by
  unfold QState.applyAgeBoosts
  apply boostFold_getTask_mem now _ _ (getPendingTasks_ids_nodup st.db hnd) _ t ht
  intro u hu
  rcases (mem_getPendingTasks st.db u).mp hu with ⟨hmem, _⟩
  exact getTask_of_nodup st.db hnd u hmem

/-! ### Lemmas about `pop` -/

theorem popLoop_some (db : DB) :
    ∀ (fuel : Nat) (heap : List Task) (tmap : List (String × Task)) (t : Task),
      (popLoop db fuel heap tmap).1 = some t →
      db.getTask t.task_id = some t ∧ t.status = "pending" := by
  intro fuel
  induction fuel with
  | zero =>
    intro heap tmap t h
    simp [popLoop] at h
  | succ n ih =>
    intro heap tmap t h
    unfold popLoop at h
    cases hmin : extractMin heap with
    | none =>
      rw [hmin] at h
      simp at h
    | some p =>
      obtain ⟨u, rest⟩ := p
      rw [hmin] at h
      simp only [] at h
      cases hmap : mapHas tmap u.task_id with
      | false =>
        rw [hmap] at h
        simp only [Bool.false_eq_true, if_false] at h
        exact ih rest tmap t h
      | true =>
        rw [hmap] at h
        simp only [if_true] at h
        cases hg : db.getTask u.task_id with
        | none =>
          rw [hg] at h
          exact ih rest tmap t h
        | some cur =>
          rw [hg] at h
          simp only [] at h
          cases hst : (cur.status == "pending") with
          | false =>
            rw [hst] at h
            simp only [Bool.false_eq_true, if_false] at h
            exact ih rest tmap t h
          | true =>
            rw [hst] at h
            simp only [if_true] at h
            have hct : cur = t := by simpa using h
            have hid : cur.task_id = u.task_id := getTask_some_id db u.task_id cur hg
            constructor
            · rw [← hct, hid]
              exact hg
            · rw [← hct]
              exact eq_of_beq hst

/-! ### Concrete states used by the claim theorems -/

/-- An empty store. -/
def emptyDB : DB := ⟨[], [], []⟩

/-- A manager over the empty store. -/
def emptyState : QState := ⟨emptyDB, [], []⟩

/-- A P2 task created at time 100. -/
def taskEarly : Task := Task.create "early" "d1" .P2_MEDIUM "other" 100

/-- A P2 task created at time 200. -/
def taskLate : Task := Task.create "late" "d2" .P2_MEDIUM "other" 200

/-- The state after adding `taskEarly` and then `taskLate`. -/
def stateTwo : QState := (emptyState.add taskEarly 100).add taskLate 200

/-- A task whose status is already "completed". -/
def taskCompleted : Task :=
  { Task.create "a" "d" .P1_HIGH "other" 10 with status := "completed" }

/-- A manager loaded over the store holding only `taskCompleted`. -/
def stateCompleted : QState := QState.loadFromDb ⟨[taskCompleted], [], []⟩

/-- A pending P1 task in a one-row store. -/
def taskFresh : Task := Task.create "a" "d" .P1_HIGH "other" 10

/-- The store holding only `taskFresh`. -/
def dbFresh : DB := ⟨[taskFresh], [], []⟩

/-- A failed task whose retries are exhausted (3 of 3). -/
def taskExhausted : Task :=
  { Task.create "f" "d" .P2_MEDIUM "other" 10 with
      status := "failed", retry_count := 3 }

/-- A manager loaded over the store holding only `taskExhausted`. -/
def stateExhausted : QState := QState.loadFromDb ⟨[taskExhausted], [], []⟩

/-- Same category and priority as `rowOlder` but created later, stored first. -/
def rowNewer : Task := Task.create "b" "d" .P2_MEDIUM "x" 200

/-- Same category and priority as `rowNewer` but created earlier, stored second. -/
def rowOlder : Task := Task.create "a" "d" .P2_MEDIUM "x" 100

/-- The store holding `rowNewer` before `rowOlder`. -/
def dbCat : DB := ⟨[rowNewer, rowOlder], [], []⟩

/-- A pending P3 task created at time 0. -/
def taskAgedP3 : Task := Task.create "old" "d" .P3_LOW "other" 0

/-- A manager loaded over the store holding only `taskAgedP3`. -/
def stateAged : QState := QState.loadFromDb ⟨[taskAgedP3], [], []⟩

/-- A pending P3 task created at time 0, for the aging witness. -/
def taskLowOld : Task := Task.create "p3" "d" .P3_LOW "other" 0

/-- A pending top-tier task created at time 0. -/
def taskTopOld : Task := Task.create "p0" "d" .P0_CRITICAL "other" 0

/-- A pending P1-HIGH task created at time 0, past the 24-hour threshold at
the aging pass below. -/
def taskHighOld : Task := Task.create "p1" "d" .P1_HIGH "other" 0

/-- A manager over a store holding an old P1 task, an old P3 task and a P0
task, all pending. -/
def stateAgingMix : QState :=
  QState.loadFromDb ⟨[taskHighOld, taskLowOld, taskTopOld], [], []⟩

/-- The state after adding a single task, for the pop witness. -/
def statePopOne : QState := emptyState.add taskEarly 100

/-- The i-th of 25 pending same-category same-priority tasks. -/
def batchTask (i : Nat) : Task :=
  Task.create ("t" ++ toString i) "d" .P2_MEDIUM "backend" (1000 + i)

/-- The store holding the 25 batching tasks. -/
def dbBatch : DB := ⟨(List.range 25).map batchTask, [], []⟩

/-- `create_batches` run over the 25-task store. -/
def batchRun : DB × Nat × List Batch := createBatches dbBatch 777 0

/-! ### Claim theorems -/

/-- Claim C1 (code bug): with two pending tasks of equal priority created at
times 100 and 200, both `peek()` and `pop()` return the task created at 200.
The heap key stores the negated creation timestamp, so within a priority tier
the latest-created pending task is served first — contradicting the claim
(and the `Task` docstring) that the earliest-created task wins the tie. -/
theorem c1_peek_pop_return_latest_within_tier :
    stateTwo.db.getTask "early" = some taskEarly ∧
    stateTwo.db.getTask "late" = some taskLate ∧
    taskEarly.status = "pending" ∧ taskLate.status = "pending" ∧
    taskEarly.priority = taskLate.priority ∧
    taskEarly.created_at < taskLate.created_at ∧
    stateTwo.peek = some taskLate ∧
    (stateTwo.pop).1 = some taskLate := by decide

/-- Claim C2 (code bug): round-tripping any task through `to_dict` and then
`from_dict` never reconstructs it: `to_dict` writes the enum member name with
an underscore (for example "P2_MEDIUM"), while `Priority.from_string` accepts
only the plain and hyphenated aliases, so the parse raises for every task. -/
theorem c2_to_dict_from_dict_roundtrip_fails (t : Task) :
    Task.fromDict (Task.toDict t) = none := by
  have h0 : Priority.fromString "P0_CRITICAL" = none := by decide
  have h1 : Priority.fromString "P1_HIGH" = none := by decide
  have h2 : Priority.fromString "P2_MEDIUM" = none := by decide
  have h3 : Priority.fromString "P3_LOW" = none := by decide
  obtain ⟨sp, stt, id, p, d, c, s, aa, va, ca, ua, sa, cpa, op, bc, bi, md,
    rc, mr, dep, tg⟩ := t
  cases p <;>
    simp [Task.fromDict, Task.toDict, Priority.pname, h0, h1, h2, h3]

/-- Claim C3 counterexample: `start` on a task whose current status is
"completed" (so the pending-only precondition fails) is not rejected — it
returns the task, overwrites the status to "running", and appends a history
event. -/
theorem c3_counterexample_start_ignores_status :
    taskCompleted.status = "completed" ∧
    ((startTask stateCompleted "a" none 50).1).map Task.status =
      some "running" ∧
    ((startTask stateCompleted "a" none 50).2.db.getTask "a").map Task.status =
      some "running" ∧
    (startTask stateCompleted "a" none 50).2.db.history.length =
      stateCompleted.db.history.length + 1 := by decide

/-- Claim C3 (amended): start, complete and retry are rejected — `None` with
no state change and no history event — when the task does not exist (and retry
additionally when retries are exhausted); the status precondition itself is
never checked, so a transition from a non-permitted status is applied anyway. -/
theorem c3_unknown_task_rejected (st : QState) (id : String)
    (agent : Option String) (success : Bool) (now : Nat)
    (h : st.db.getTask id = none) :
    startTask st id agent now = (none, st) ∧
    completeTask st id success now = (none, st) ∧
    retryTask st id now = (none, st) := by
  unfold startTask completeTask retryTask
  rw [h]
  exact ⟨rfl, rfl, rfl⟩

theorem c3_unknown_task_rejected_witness :
    emptyState.db.getTask "nope" = none ∧
    (startTask emptyState "nope" none 7 = (none, emptyState) ∧
     completeTask emptyState "nope" true 7 = (none, emptyState) ∧
     retryTask emptyState "nope" 7 = (none, emptyState)) :=
  ⟨by decide, c3_unknown_task_rejected emptyState "nope" none true 7 (by decide)⟩

/-- Claim C4: retry on an existing task whose `retry_count` has reached
`max_retries` returns `None` and leaves the whole state — task rows, history
and the in-memory queue — exactly unchanged. -/
theorem c4_retry_exhausted_rejected (st : QState) (id : String) (now : Nat)
    (t : Task) (hget : st.db.getTask id = some t)
    (hex : t.max_retries ≤ t.retry_count) :
    retryTask st id now = (none, st) := by
  unfold retryTask
  rw [hget]
  simp only []
  rw [if_pos hex]

theorem c4_retry_exhausted_rejected_witness :
    stateExhausted.db.getTask "f" = some taskExhausted ∧
    taskExhausted.max_retries ≤ taskExhausted.retry_count ∧
    retryTask stateExhausted "f" 99 = (none, stateExhausted) :=
  ⟨by decide, by decide,
    c4_retry_exhausted_rejected stateExhausted "f" 99 taskExhausted
      (by decide) (by decide)⟩

/-- Claim C5 (code bug): the aging pass never applies the P1->P0 promotion.
For a pending P1-HIGH task created at time 0, a pass at 90000 seconds
(25 hours, past the 24-hour threshold) computes the target
`Priority.P0_CRITICAL`, but the write runs under `if new_priority:` and the
value-0 IntEnum member is falsy in Python, so the task is left completely
unchanged and uncounted — while the very same pass promotes an equally old
P3-LOW task exactly one tier with its boost counter incremented and counts
it. The claimed per-tier promotion (echoed by the threshold table's own
comment "P1-HIGH -> P0-CRITICAL after 24 hours") fails exactly on the P1
tier. -/
theorem c5_p1_to_p0_promotion_dropped :
    boostTarget Priority.P1_HIGH ((90000 : Int) - (0 : Int)) =
      some Priority.P0_CRITICAL ∧
    taskHighOld.priority = Priority.P1_HIGH ∧
    taskHighOld.status = "pending" ∧
    taskHighOld.created_at = 0 ∧
    (90000 : Int) - (taskHighOld.created_at : Int) ≥ 24 * 3600 ∧
    ((stateAgingMix.applyAgeBoosts 90000).1).db.getTask "p1" =
      some taskHighOld ∧
    (((stateAgingMix.applyAgeBoosts 90000).1).db.getTask "p3").map
      Task.priority = some Priority.P2_MEDIUM ∧
    (((stateAgingMix.applyAgeBoosts 90000).1).db.getTask "p3").map
      Task.boost_count = some 1 ∧
    ((stateAgingMix.applyAgeBoosts 90000).1).db.history.length =
      stateAgingMix.db.history.length + 1 ∧
    (stateAgingMix.applyAgeBoosts 90000).2 = 1 := by decide

/-- Claim C6 counterexample: starting a pending task commits two separate
transactions — the task update and then the history append — so the durable
state reached after the first committed transaction has the task already
"running" while no history event has been appended, refuting the
together-or-not-at-all contract. -/
theorem c6_counterexample_update_without_history :
    (startTask (QState.loadFromDb dbFresh) "a" none 50).2.db =
      dbFresh.applyTxns (startTaskSteps dbFresh "a" none 50) ∧
    (startTaskSteps dbFresh "a" none 50).length = 2 ∧
    ∃ d ∈ reachableDuring dbFresh (startTaskSteps dbFresh "a" none 50),
      (d.getTask "a").map Task.status = some "running" ∧ d.history = [] := by
  refine ⟨rfl, rfl, ?_⟩
  decide

/-- Claim C6 (amended): every single store write is atomic on its own, and a
completed `start` leaves the task update paired with exactly its history
append — but the two commit in separate transactions, not one, so the pairing
holds only at operation boundaries, not at every reachable durable state. -/
theorem c6_pairing_holds_at_completion (db : DB) (id : String)
    (agent : Option String) (now : Nat) (t : Task)
    (hget : db.getTask id = some t) :
    (startTaskSteps db id agent now).length = 2 ∧
    (db.applyTxns (startTaskSteps db id agent now)).history =
      db.history ++ [⟨id, "started", some "pending", some "running", now⟩] ∧
    ((db.applyTxns (startTaskSteps db id agent now)).getTask id).map
      Task.status = some "running" := by
  have hid : t.task_id = id := getTask_some_id db id t hget
  unfold startTaskSteps
  rw [hget]
  cases agent with
  | none =>
    refine ⟨rfl, rfl, ?_⟩
    have hg := getTask_saveTask_eq db
      { t with status := "running", started_at := some now, updated_at := now }
      id hid
    unfold DB.saveTask at hg
    simp only [DB.applyTxns, List.foldl]
    rw [getTask_applyTxn_hist, hg]
    rfl
  | some a =>
    refine ⟨rfl, rfl, ?_⟩
    have hg := getTask_saveTask_eq db
      { t with status := "running", started_at := some now, updated_at := now,
               assigned_agent := some a } id hid
    unfold DB.saveTask at hg
    simp only [DB.applyTxns, List.foldl]
    rw [getTask_applyTxn_hist, hg]
    rfl

theorem c6_pairing_holds_at_completion_witness :
    dbFresh.getTask "a" = some taskFresh ∧
    ((startTaskSteps dbFresh "a" none 50).length = 2 ∧
     (dbFresh.applyTxns (startTaskSteps dbFresh "a" none 50)).history =
       dbFresh.history ++ [⟨"a", "started", some "pending", some "running", 50⟩] ∧
     ((dbFresh.applyTxns (startTaskSteps dbFresh "a" none 50)).getTask "a").map
       Task.status = some "running") :=
  ⟨by decide, c6_pairing_holds_at_completion dbFresh "a" none 50 taskFresh (by decide)⟩

/-- Claim C7 counterexample: two pending tasks of category "x" with equal
priority, the later-created one stored first, come back from
`get_tasks_by_category` in storage order (created 200 before created 100),
while `get_pending_tasks` and `get_tasks_by_status` — whose queries do name
`created_at` — return them oldest first. -/
theorem c7_counterexample_category_not_fifo :
    rowNewer.priority = rowOlder.priority ∧
    rowNewer.category = rowOlder.category ∧
    rowOlder.created_at < rowNewer.created_at ∧
    (dbCat.getTasksByCategory "x" (some "pending")).map Task.created_at =
      [200, 100] ∧
    (dbCat.getPendingTasks).map Task.created_at = [100, 200] ∧
    (dbCat.getTasksByStatus "pending").map Task.created_at = [100, 200] := by
  decide

/-- Claim C7 (amended): `get_tasks_by_category` returns exactly the matching
rows ordered by priority ascending only — its query has no `created_at`
tie-break, so equal-priority rows keep storage order rather than oldest-first
(unlike `get_pending_tasks` and `get_tasks_by_status`). -/
theorem c7_by_category_sorted_by_priority_only (db : DB) (category : String)
    (status : Option String) :
    (db.getTasksByCategory category status).Pairwise
      (fun a b => a.priority.toInt ≤ b.priority.toInt) ∧
    (db.getTasksByCategory category status).Perm
      (match status with
       | some s => db.tasks.filter
           (fun t => t.category == category && t.status == s)
       | none => db.tasks.filter (fun t => t.category == category)) := by
  have hasym : ∀ a b : Task,
      ltPriorityOnly a b = true → ltPriorityOnly b a = false := by
    intro a b h
    simp only [ltPriorityOnly, decide_eq_true_eq] at h
    simp only [ltPriorityOnly, decide_eq_false_iff_not]
    omega
  have htrans : ∀ a b c : Task, ltPriorityOnly a b = true →
      ltPriorityOnly b c = true → ltPriorityOnly a c = true := by
    intro a b c h1 h2
    simp only [ltPriorityOnly, decide_eq_true_eq] at h1 h2 ⊢
    omega
  constructor
  · have himp : ∀ {a b : Task}, ltPriorityOnly b a = false →
        a.priority.toInt ≤ b.priority.toInt := by
      intro a b h
      simp only [ltPriorityOnly, decide_eq_false_iff_not] at h
      omega
    cases status with
    | some s =>
      exact (sortLt_pairwise ltPriorityOnly hasym htrans _).imp himp
    | none =>
      exact (sortLt_pairwise ltPriorityOnly hasym htrans _).imp himp
  · cases status with
    | some s => exact sortLt_perm _ _
    | none => exact sortLt_perm _ _

/-- Claim C8: with 25 pending tasks of one category and one priority and the
batch capacity of 10, `create_batches` yields exactly 3 batches of sizes 10,
10 and 5 for that (priority, category) pair — and no others — and every
task's stored batch reference equals the id of the batch containing it. -/
theorem c8_batches_sizes_10_10_5 :
    dbBatch.tasks.length = 25 ∧
    (dbBatch.tasks.all (fun t => t.status == "pending" &&
        t.category == "backend" && t.priority == Priority.P2_MEDIUM)) = true ∧
    (batchRun.2.2).length = 3 ∧
    (batchRun.2.2).map (fun b => b.tasks.length) = [10, 10, 5] ∧
    ((batchRun.2.2).all (fun b => b.category == "backend" &&
        b.priority == Priority.P2_MEDIUM)) = true ∧
    ((batchRun.2.2).all (fun b => b.tasks.all (fun t =>
        t.batch_id == some b.batch_id &&
        batchRun.1.getTask t.task_id == some t))) = true := by decide

/-- Claim C9: `get_next_task` always runs a full aging pass before peeking,
and that pass mutates durable state: on a store holding one pending P3 task
created at time 0, calling `get_next_task` at time 18000 (5 hours) leaves the
task promoted to P2 with `boost_count` 1 and one new history event — a
read-looking query with durable side effects. -/
theorem c9_get_next_task_ages_then_peeks :
    (∀ (st : QState) (now : Nat),
        getNextTask st now =
          ((st.applyAgeBoosts now).1.peek, (st.applyAgeBoosts now).1)) ∧
    (((getNextTask stateAged 18000).2.db.getTask "old").map Task.priority =
       some Priority.P2_MEDIUM ∧
     ((getNextTask stateAged 18000).2.db.getTask "old").map Task.boost_count =
       some 1 ∧
     (getNextTask stateAged 18000).2.db.history.length =
       stateAged.db.history.length + 1 ∧
     (stateAged.db.getTask "old").map Task.priority = some Priority.P3_LOW ∧
     (stateAged.db.getTask "old").map Task.status = some "pending") :=
  ⟨fun _ _ => rfl, by decide⟩

/-- Claim C10: whenever `pop` returns a task, the durable store is left
entirely untouched — the task's stored record still exists with status
"pending" — so a working queue rebuilt from the store
(`_load_from_db`) contains the popped task again. -/
theorem c10_pop_leaves_durable_state (st : QState) (t : Task)
    (h : (st.pop).1 = some t) :
    (st.pop).2.db = st.db ∧ t.status = "pending" ∧
    st.db.getTask t.task_id = some t ∧
    t ∈ (QState.loadFromDb st.db).heap := by
  have hp : (popLoop st.db st.heap.length st.heap st.tmap).1 = some t := h
  obtain ⟨hg, hs⟩ := popLoop_some st.db st.heap.length st.heap st.tmap t hp
  refine ⟨rfl, hs, hg, ?_⟩
  have hmem : t ∈ st.db.tasks := getTask_some_mem st.db t.task_id t hg
  show t ∈ st.db.getPendingTasks
  exact (mem_getPendingTasks st.db t).mpr ⟨hmem, by simp [hs]⟩

theorem c10_pop_leaves_durable_state_witness :
    (statePopOne.pop).1 = some taskEarly ∧
    ((statePopOne.pop).2.db = statePopOne.db ∧ taskEarly.status = "pending" ∧
     statePopOne.db.getTask taskEarly.task_id = some taskEarly ∧
     taskEarly ∈ (QState.loadFromDb statePopOne.db).heap) :=
  ⟨by decide, c10_pop_leaves_durable_state statePopOne taskEarly (by decide)⟩

end QueueSpec
